import Mathlib

/-!
Verification of `apps/protein_folding/helixfold3/helixfold/data/templates_quat_affine.py`
(PaddleHelix).  The file is a numpy port of the quaternion/affine-frame geometry
kernel: a `QuatAffine` class storing a quaternion, a rotation matrix and a
translation per batch element, plus canonical-frame builders from N/CA/C atom
triplets.  All numeric arrays act pointwise across the leading batch axes, so
the shallow embedding below models one batch element: vectors are `Fin 3 → ℝ`,
quaternions `Fin 4 → ℝ`, matrices `Matrix (Fin 3) (Fin 3) ℝ`.  The fixed
epsilon constants `1e-20` of the source are kept literally.  Operations that
raise in Python (attribute errors, concatenating `None`) return `Option`.
-/

set_option maxHeartbeats 1600000

set_option linter.unnecessarySeqFocus false

open scoped Matrix

noncomputable section

abbrev Vec3 := Fin 3 → ℝ

abbrev Quat := Fin 4 → ℝ

abbrev Mat3 := Matrix (Fin 3) (Fin 3) ℝ

/-- Coefficient tensor `QUAT_TO_ROT` from the source: `QUAT_TO_ROT i j` is the
3×3 block multiplying `q i * q j` in the quadratic quaternion-to-rotation map.
The source fills the diagonal (rr, ii, jj, kk) and the upper triangle
(ij, ik, jk, ir, jr, kr); the remaining blocks stay at their zero
initialization. -/
def QUAT_TO_ROT : Fin 4 → Fin 4 → Matrix (Fin 3) (Fin 3) ℝ :=
  ![![!![1, 0, 0; 0, 1, 0; 0, 0, 1],
     !![0, 0, 0; 0, 0, -2; 0, 2, 0],
     !![0, 0, 2; 0, 0, 0; -2, 0, 0],
     !![0, -2, 0; 2, 0, 0; 0, 0, 0]],
    ![!![0, 0, 0; 0, 0, 0; 0, 0, 0],
     !![1, 0, 0; 0, -1, 0; 0, 0, -1],
     !![0, 2, 0; 2, 0, 0; 0, 0, 0],
     !![0, 0, 2; 0, 0, 0; 2, 0, 0]],
    ![!![0, 0, 0; 0, 0, 0; 0, 0, 0],
     !![0, 0, 0; 0, 0, 0; 0, 0, 0],
     !![-1, 0, 0; 0, 1, 0; 0, 0, -1],
     !![0, 0, 0; 0, 0, 2; 0, 2, 0]],
    ![!![0, 0, 0; 0, 0, 0; 0, 0, 0],
     !![0, 0, 0; 0, 0, 0; 0, 0, 0],
     !![0, 0, 0; 0, 0, 0; 0, 0, 0],
     !![-1, 0, 0; 0, -1, 0; 0, 0, 1]]]

/-- `quat_to_rot` from the source: contract `QUAT_TO_ROT` against the outer
product of the quaternion with itself,
`rot_tensor = sum_(i,j) QUAT_TO_ROT[i,j] * q_i * q_j`.
The source computes these nine values correctly and then reshapes them into a
`(..., 3, 3)` array; this definition is the per-batch-element value of that
reshaped result.  (The reshape itself is defective in the numpy source: it
calls `t_shape.extend` on a shape tuple, see the C3 analysis.) -/
def quat_to_rot (normalized_quat : Quat) : Mat3 :=
  Matrix.of fun a b =>
    ∑ i : Fin 4, ∑ j : Fin 4,
      QUAT_TO_ROT i j a b * normalized_quat i * normalized_quat j

/-- Coefficient tensor `QUAT_MULTIPLY` from the source, transcribed slice by
slice: `QUAT_MULTIPLY i j k` is the coefficient of `a i * b j` in component `k`
of the quaternion product `a * b`; the source lists the four `[:, :, k]`
slices. -/
def QUAT_MULTIPLY : Fin 4 → Fin 4 → Fin 4 → ℝ := fun i j k =>
  (![!![1, 0, 0, 0; 0, -1, 0, 0; 0, 0, -1, 0; 0, 0, 0, -1],
     !![0, 1, 0, 0; 1, 0, 0, 0; 0, 0, 0, 1; 0, 0, -1, 0],
     !![0, 0, 1, 0; 0, 0, 0, -1; 1, 0, 0, 0; 0, 1, 0, 0],
     !![0, 0, 0, 1; 0, 0, 1, 0; 0, -1, 0, 0; 1, 0, 0, 0]] :
    Fin 4 → Matrix (Fin 4) (Fin 4) ℝ) k i j

/-- `QUAT_MULTIPLY_BY_VEC = QUAT_MULTIPLY[:, 1:, :]` from the source: the
second factor is restricted to its three vector components. -/
def QUAT_MULTIPLY_BY_VEC : Fin 4 → Fin 3 → Fin 4 → ℝ := fun i j k =>
  QUAT_MULTIPLY i j.succ k

/-- `quat_multiply_by_vec` from the source:
`sum_(i,j) QUAT_MULTIPLY_BY_VEC[i,j,k] * quat_i * vec_j` for each output
component `k`; the output has four components (the full quaternion product of
`quat` with the pure-vector quaternion `(0, vec)`). -/
def quat_multiply_by_vec (quat : Quat) (vec : Vec3) : Quat :=
  fun k => ∑ i : Fin 4, ∑ j : Fin 3,
    QUAT_MULTIPLY_BY_VEC i j k * quat i * vec j

/-- `apply_rot_to_vec` from the source (the `unstack` flag only changes how the
three input coordinates are unpacked, not the arithmetic). -/
def apply_rot_to_vec (rot : Mat3) (vec : Vec3) : Vec3 :=
  ![rot 0 0 * vec 0 + rot 0 1 * vec 1 + rot 0 2 * vec 2,
    rot 1 0 * vec 0 + rot 1 1 * vec 1 + rot 1 2 * vec 2,
    rot 2 0 * vec 0 + rot 2 1 * vec 1 + rot 2 2 * vec 2]

/-- `apply_rot_to_vec_np` from the source; elementwise it is the same formula
as `apply_rot_to_vec`, indexing the matrix by nested lists. -/
def apply_rot_to_vec_np (rot : Mat3) (vec : Vec3) : Vec3 :=
  ![rot 0 0 * vec 0 + rot 0 1 * vec 1 + rot 0 2 * vec 2,
    rot 1 0 * vec 0 + rot 1 1 * vec 1 + rot 1 2 * vec 2,
    rot 2 0 * vec 0 + rot 2 1 * vec 1 + rot 2 2 * vec 2]

/-- `apply_inverse_rot_to_vec` from the source: multiply by the transpose. -/
def apply_inverse_rot_to_vec (rot : Mat3) (vec : Vec3) : Vec3 :=
  ![rot 0 0 * vec 0 + rot 1 0 * vec 1 + rot 2 0 * vec 2,
    rot 0 1 * vec 0 + rot 1 1 * vec 1 + rot 2 1 * vec 2,
    rot 0 2 * vec 0 + rot 1 2 * vec 1 + rot 2 2 * vec 2]

/-- Per-element L2 norm of a quaternion, `np.linalg.norm(quaternion, axis=-1)`. -/
def quatNorm (q : Quat) : ℝ :=
  Real.sqrt (q 0 ^ 2 + q 1 ^ 2 + q 2 ^ 2 + q 3 ^ 2)

/-- The L2 normalization `quaternion / q_length[..., None]` performed by
`QuatAffine.__init__` when `normalize` is set. -/
def normalizeQuat (q : Quat) : Quat := fun i => q i / quatNorm q

/-- The `QuatAffine` value: quaternion (possibly absent — the constructor
accepts `quaternion=None` with an explicit rotation), rotation matrix, and
translation, per batch element. -/
structure QuatAffine where
  quaternion : Option Quat
  rotation : Mat3
  translation : Vec3

/-- `QuatAffine.__init__` from the source, value level: optionally L2-normalize
the quaternion, then derive the rotation from it when no rotation is supplied.
`quat_to_rot(None)` (no quaternion and no rotation) is a Python error, modeled
as `none`.  The shape assertions of the constructor are modeled separately at
shape level by `initShapeChecks`. -/
def QuatAffine.init (quaternion : Option Quat) (translation : Vec3)
    (rotation : Option Mat3) (normalize : Bool) : Option QuatAffine :=
  let q := if normalize then quaternion.map normalizeQuat else quaternion
  match rotation, q with
  | some r, q => some ⟨q, r, translation⟩
  | none, some qq => some ⟨some qq, quat_to_rot qq, translation⟩
  | none, none => none

/-- `QuatAffine.to_tensor` from the source:
`np.concatenate([self.quaternion, self.translation], axis=-1)`.  When the
stored quaternion is `None`, concatenation raises, modeled as `none`. -/
def QuatAffine.to_tensor (f : QuatAffine) : Option (Fin 7 → ℝ) :=
  f.quaternion.map fun q => Fin.append q f.translation

/-- Model of calling `.detach()` on a plain numpy `ndarray`: the method does
not exist (numpy arrays carry no autodiff metadata), so the attribute lookup
raises `AttributeError`.  Modeled as an always-absent result. -/
def npDetach (_x : α) : Option α := none

/-- `QuatAffine.stop_rot_gradient` from the source: detach the quaternion (when
present) and the rotation, then rebuild the frame with `normalize=False`.  On
the numpy arrays this file manipulates, `.detach()` raises, so the constructor
is never reached. -/
def QuatAffine.stop_rot_gradient (f : QuatAffine) : Option QuatAffine :=
  let quatStep : Option (Option Quat) :=
    match f.quaternion with
    | none => some none
    | some q => (npDetach q).map some
  quatStep.bind fun quat =>
    (npDetach f.rotation).bind fun rot =>
      QuatAffine.init quat f.translation (some rot) false

/-- `QuatAffine.scale_translation` from the source: rebuild the frame with the
translation multiplied elementwise by `position_scale`, passing the existing
quaternion and rotation through with `normalize=False`. -/
def QuatAffine.scale_translation (f : QuatAffine) (position_scale : ℝ) :
    Option QuatAffine :=
  QuatAffine.init f.quaternion (fun i => position_scale * f.translation i)
    (some f.rotation) false

/-- `QuatAffine.pre_compose` from the source: first-order quaternion update
`q + quat_multiply_by_vec(q, update[0:3])`, translation update rotated by the
current rotation, then the constructor with `rotation=None, normalize=True`.
A frame without a quaternion would make the source fail (`None` arithmetic),
modeled as `none`. -/
def QuatAffine.pre_compose (f : QuatAffine) (update : Fin 6 → ℝ) :
    Option QuatAffine :=
  match f.quaternion with
  | none => none
  | some q =>
    let vector_quaternion_update : Vec3 := ![update 0, update 1, update 2]
    let trans_update : Vec3 := ![update 3, update 4, update 5]
    let new_quaternion : Quat :=
      fun i => q i + quat_multiply_by_vec q vector_quaternion_update i
    let trans_update2 : Vec3 := apply_rot_to_vec f.rotation trans_update
    let new_translation : Vec3 := fun i => f.translation i + trans_update2 i
    QuatAffine.init (some new_quaternion) new_translation none true

/-- `QuatAffine.apply_to_point` from the source, per batch element:
`rotation · point + translation`.  The `extra_dims` argument of the source only
inserts singleton broadcast axes into rotation and translation; it does not
change this per-element arithmetic. -/
def QuatAffine.apply_to_point (f : QuatAffine) (point : Vec3) : Vec3 :=
  ![apply_rot_to_vec f.rotation point 0 + f.translation 0,
    apply_rot_to_vec f.rotation point 1 + f.translation 1,
    apply_rot_to_vec f.rotation point 2 + f.translation 2]

/-- `QuatAffine.invert_point` from the source, per batch element: subtract the
translation, then apply the transposed rotation.  As in `apply_to_point`,
`extra_dims` only inserts broadcast axes. -/
def QuatAffine.invert_point (f : QuatAffine) (transformed_point : Vec3) : Vec3 :=
  apply_inverse_rot_to_vec f.rotation
    ![transformed_point 0 - f.translation 0,
      transformed_point 1 - f.translation 1,
      transformed_point 2 - f.translation 2]

/-- `_multiply` from the source (the batched 3×3 product helper): each entry is
transcribed from the source's `a1..a23`/`b1..b23` reads, which spell out the
standard row-by-column product. -/
def multiply (a b : Mat3) : Mat3 :=
  !![a 0 0 * b 0 0 + a 0 1 * b 1 0 + a 0 2 * b 2 0,
     a 0 0 * b 0 1 + a 0 1 * b 1 1 + a 0 2 * b 2 1,
     a 0 0 * b 0 2 + a 0 1 * b 1 2 + a 0 2 * b 2 2;
     a 1 0 * b 0 0 + a 1 1 * b 1 0 + a 1 2 * b 2 0,
     a 1 0 * b 0 1 + a 1 1 * b 1 1 + a 1 2 * b 2 1,
     a 1 0 * b 0 2 + a 1 1 * b 1 2 + a 1 2 * b 2 2;
     a 2 0 * b 0 0 + a 2 1 * b 1 0 + a 2 2 * b 2 0,
     a 2 0 * b 0 1 + a 2 1 * b 1 1 + a 2 2 * b 2 1,
     a 2 0 * b 0 2 + a 2 1 * b 1 2 + a 2 2 * b 2 2]

/-- `_multiply_np` from the source (the unbatched 3×3 product helper); entry by
entry it is the same row-by-column product as `_multiply`. -/
def multiply_np (a b : Mat3) : Mat3 :=
  !![a 0 0 * b 0 0 + a 0 1 * b 1 0 + a 0 2 * b 2 0,
     a 0 0 * b 0 1 + a 0 1 * b 1 1 + a 0 2 * b 2 1,
     a 0 0 * b 0 2 + a 0 1 * b 1 2 + a 0 2 * b 2 2;
     a 1 0 * b 0 0 + a 1 1 * b 1 0 + a 1 2 * b 2 0,
     a 1 0 * b 0 1 + a 1 1 * b 1 1 + a 1 2 * b 2 1,
     a 1 0 * b 0 2 + a 1 1 * b 1 2 + a 1 2 * b 2 2;
     a 2 0 * b 0 0 + a 2 1 * b 1 0 + a 2 2 * b 2 0,
     a 2 0 * b 0 1 + a 2 1 * b 1 1 + a 2 2 * b 2 1,
     a 2 0 * b 0 2 + a 2 1 * b 1 2 + a 2 2 * b 2 2]

/-- `make_canonical_transform` from the source (the batched variant), per batch
element.  Note the epsilon placements: `1e-20` inside the square root for the
first (z-axis) and third (x-axis) rotations, but added outside the square root
in the normalizer of the second (y-axis) rotation. -/
def make_canonical_transform (n_xyz ca_xyz c_xyz : Vec3) : Vec3 × Mat3 :=
  let translation : Vec3 := fun i => -(ca_xyz i)
  let n_xyz1 : Vec3 := fun i => n_xyz i + translation i
  let c_xyz1 : Vec3 := fun i => c_xyz i + translation i
  let c_x := c_xyz1 0
  let c_y := c_xyz1 1
  let c_z := c_xyz1 2
  let norm := Real.sqrt (c_x ^ 2 + c_y ^ 2 + 1e-20)
  let sin_c1 := -c_y / norm
  let cos_c1 := c_x / norm
  let c1_rot_matrix : Mat3 :=
    !![cos_c1, -sin_c1, 0; sin_c1, cos_c1, 0; 0, 0, 1]
  let norm2 := Real.sqrt (c_x ^ 2 + c_y ^ 2 + c_z ^ 2) + 1e-20
  let sin_c2 := c_z / norm2
  let cos_c2 := Real.sqrt (c_x ^ 2 + c_y ^ 2) / norm2
  let c2_rot_matrix : Mat3 :=
    !![cos_c2, 0, sin_c2; 0, 1, 0; -sin_c2, 0, cos_c2]
  let c_rot_matrix := multiply c2_rot_matrix c1_rot_matrix
  let n_xyz2 : Vec3 := apply_rot_to_vec c_rot_matrix n_xyz1
  let n_y := n_xyz2 1
  let n_z := n_xyz2 2
  let norm3 := Real.sqrt (n_y ^ 2 + n_z ^ 2 + 1e-20)
  let sin_n := -n_z / norm3
  let cos_n := n_y / norm3
  let n_rot_matrix : Mat3 :=
    !![1, 0, 0; 0, cos_n, -sin_n; 0, sin_n, cos_n]
  (translation, multiply n_rot_matrix c_rot_matrix)

/-- `make_canonical_transform_np` from the source (the unbatched variant), per
batch element.  Every epsilon sits inside its square root here, including the
normalizer of the second rotation — unlike the batched variant.  The final
`np.transpose(..., [2, 0, 1])` of the source only moves the batch axis to the
front and is the identity per element. -/
def make_canonical_transform_np (n_xyz ca_xyz c_xyz : Vec3) : Vec3 × Mat3 :=
  let translation : Vec3 := fun i => -(ca_xyz i)
  let n_xyz1 : Vec3 := fun i => n_xyz i + translation i
  let c_xyz1 : Vec3 := fun i => c_xyz i + translation i
  let c_x := c_xyz1 0
  let c_y := c_xyz1 1
  let c_z := c_xyz1 2
  let sin_c1 := -c_y / Real.sqrt (1e-20 + c_x ^ 2 + c_y ^ 2)
  let cos_c1 := c_x / Real.sqrt (1e-20 + c_x ^ 2 + c_y ^ 2)
  let c1_rot_matrix : Mat3 :=
    !![cos_c1, -sin_c1, 0; sin_c1, cos_c1, 0; 0, 0, 1]
  let sin_c2 := c_z / Real.sqrt (1e-20 + c_x ^ 2 + c_y ^ 2 + c_z ^ 2)
  let cos_c2 := Real.sqrt (c_x ^ 2 + c_y ^ 2) /
    Real.sqrt (1e-20 + c_x ^ 2 + c_y ^ 2 + c_z ^ 2)
  let c2_rot_matrix : Mat3 :=
    !![cos_c2, 0, sin_c2; 0, 1, 0; -sin_c2, 0, cos_c2]
  let c_rot_matrix := multiply_np c2_rot_matrix c1_rot_matrix
  let n_xyz2 : Vec3 := apply_rot_to_vec_np c_rot_matrix n_xyz1
  let n_y := n_xyz2 1
  let n_z := n_xyz2 2
  let sin_n := -n_z / Real.sqrt (1e-20 + n_y ^ 2 + n_z ^ 2)
  let cos_n := n_y / Real.sqrt (1e-20 + n_y ^ 2 + n_z ^ 2)
  let n_rot_matrix : Mat3 :=
    !![1, 0, 0; 0, cos_n, -sin_n; 0, sin_n, cos_n]
  (translation, multiply_np n_rot_matrix c_rot_matrix)

/-- Shapes of numpy arrays, leading dimensions first. -/
abbrev Shape := List ℕ

/-- Shape-level model of the assertion layer of `QuatAffine.__init__`:
`assert quaternion.shape[-1] == 4` when a quaternion is given; the shape of the
rotation (provided, or derived through `quat_to_rot`'s documented
`(..., 4) → (..., 3, 3)` contract when absent — impossible when the quaternion
is also absent) must satisfy `assert rotation.shape[-1] == 3 and
rotation.shape[-2] == 3`; and `assert translation.shape[-1] == 3`.  There is no
assertion relating the leading dimensions of the quaternion and the
translation. -/
def initShapeChecks (quaternionShape : Option Shape) (translationShape : Shape)
    (rotationShape : Option Shape) : Bool :=
  (match quaternionShape with
   | some qs => qs.getLast? == some 4
   | none => true) &&
  (match rotationShape with
   | some rs => (rs.getLast? == some 3) && (rs.dropLast.getLast? == some 3)
   | none =>
     match quaternionShape with
     | some qs =>
       ((qs.dropLast ++ [3, 3]).getLast? == some 3) &&
         ((qs.dropLast ++ [3, 3]).dropLast.getLast? == some 3)
     | none => false) &&
  (translationShape.getLast? == some 3)

/-- The Hamilton product of two quaternions in `(w, x, y, z)` component order —
the standard reference definition the spec compares `quat_multiply_by_vec`
against. -/
def hamiltonProduct (a b : Quat) : Quat :=
  ![a 0 * b 0 - a 1 * b 1 - a 2 * b 2 - a 3 * b 3,
    a 0 * b 1 + a 1 * b 0 + a 2 * b 3 - a 3 * b 2,
    a 0 * b 2 - a 1 * b 3 + a 2 * b 0 + a 3 * b 1,
    a 0 * b 3 + a 1 * b 2 - a 2 * b 1 + a 3 * b 0]

/-- The pure-vector quaternion `(0, v)`. -/
def pureQuat (v : Vec3) : Quat := ![0, v 0, v 1, v 2]

/-- The vector part of a quaternion. -/
def vecPart (q : Quat) : Vec3 := ![q 1, q 2, q 3]

end

/-! ## Helper lemmas -/

/-- Closed form of the quadratic map `quat_to_rot`: the standard
quaternion-to-rotation matrix. -/
theorem quat_to_rot_eq (q : Quat) :
    quat_to_rot q =
      !![q 0 ^ 2 + q 1 ^ 2 - q 2 ^ 2 - q 3 ^ 2,
         2 * q 1 * q 2 - 2 * q 0 * q 3,
         2 * q 1 * q 3 + 2 * q 0 * q 2;
         2 * q 1 * q 2 + 2 * q 0 * q 3,
         q 0 ^ 2 - q 1 ^ 2 + q 2 ^ 2 - q 3 ^ 2,
         2 * q 2 * q 3 - 2 * q 0 * q 1;
         2 * q 1 * q 3 - 2 * q 0 * q 2,
         2 * q 2 * q 3 + 2 * q 0 * q 1,
         q 0 ^ 2 - q 1 ^ 2 - q 2 ^ 2 + q 3 ^ 2] := by
  ext a b
  fin_cases a <;> fin_cases b <;>
    simp [quat_to_rot, QUAT_TO_ROT, Fin.sum_univ_four, Matrix.vecHead,
      Matrix.vecTail] <;> ring

/-- `quat_multiply_by_vec` with the zero vector returns the zero quaternion. -/
theorem quat_multiply_by_vec_zero (q : Quat) (k : Fin 4) :
    quat_multiply_by_vec q ![0, 0, 0] k = 0 := by
  fin_cases k <;>
    simp [quat_multiply_by_vec, QUAT_MULTIPLY_BY_VEC, QUAT_MULTIPLY,
      Fin.sum_univ_four, Fin.sum_univ_three]

/-! ## Claim C3 -/

/-- Claim C3: for every unit quaternion `q` (sum of squared components 1), the
rotation-matrix values computed by `quat_to_rot` form an orthonormal matrix
(`R * Rᵀ = 1`) with determinant `+1` — exactly, in the real-number model. -/
theorem quat_to_rot_orthonormal (q : Quat)
    (h : q 0 ^ 2 + q 1 ^ 2 + q 2 ^ 2 + q 3 ^ 2 = 1) :
    quat_to_rot q * (quat_to_rot q)ᵀ = 1 ∧ (quat_to_rot q).det = 1 := by
  constructor
  · ext a b
    rw [quat_to_rot_eq]
    fin_cases a <;> fin_cases b <;>
      simp [Matrix.mul_apply, Matrix.transpose_apply, Fin.sum_univ_three,
        Matrix.one_apply, Matrix.vecHead, Matrix.vecTail] <;>
      first
        | linear_combination (q 0 ^ 2 + q 1 ^ 2 + q 2 ^ 2 + q 3 ^ 2 + 1) * h
        | ring
  · rw [quat_to_rot_eq, Matrix.det_fin_three]
    simp [Matrix.vecHead, Matrix.vecTail]
    linear_combination
      ((q 0 ^ 2 + q 1 ^ 2 + q 2 ^ 2 + q 3 ^ 2) ^ 2 +
        (q 0 ^ 2 + q 1 ^ 2 + q 2 ^ 2 + q 3 ^ 2) + 1) * h

/-- Witness for C3 at the concrete unit quaternion `(1, 0, 0, 0)`. -/
theorem quat_to_rot_orthonormal_witness :
    quat_to_rot ![1, 0, 0, 0] * (quat_to_rot ![1, 0, 0, 0])ᵀ = 1 ∧
      (quat_to_rot ![1, 0, 0, 0]).det = 1 :=
  quat_to_rot_orthonormal ![1, 0, 0, 0] (by norm_num)

/-! ## Claim C4 -/

/-- Counterexample for C4 as stated: at `q = (0,1,0,0)`, `v = (1,0,0)` the
output of `quat_multiply_by_vec` is the full Hamilton product `(-1,0,0,0)`,
whose scalar component is nonzero — it does not equal the (embedded) vector
part of the Hamilton product, which is `(0,0,0)`. -/
theorem quat_multiply_by_vec_vector_part_counterexample :
    ¬ (quat_multiply_by_vec ![0, 1, 0, 0] ![1, 0, 0] =
        pureQuat (vecPart (hamiltonProduct ![0, 1, 0, 0] (pureQuat ![1, 0, 0])))) := by
  intro hEq
  have h0 := congrFun hEq 0
  norm_num [quat_multiply_by_vec, QUAT_MULTIPLY_BY_VEC, QUAT_MULTIPLY,
    hamiltonProduct, pureQuat, vecPart, Fin.sum_univ_four, Fin.sum_univ_three,
    Matrix.vecHead, Matrix.vecTail] at h0

/-- Claim C4 (amended): for every quaternion `q` and 3-vector `v`,
`quat_multiply_by_vec q v` equals the full Hamilton product (all four
components) of `q` with the pure-vector quaternion `(0, v)`, computed via the
fixed 4×3×4 coefficient tensor. -/
theorem quat_multiply_by_vec_hamilton (q : Quat) (v : Vec3) :
    quat_multiply_by_vec q v = hamiltonProduct q (pureQuat v) := by
  funext k
  fin_cases k <;>
    simp [quat_multiply_by_vec, QUAT_MULTIPLY_BY_VEC, QUAT_MULTIPLY,
      hamiltonProduct, pureQuat, Fin.sum_univ_four, Fin.sum_univ_three,
      Matrix.vecHead, Matrix.vecTail] <;> ring

/-! ## Claim C2 -/

/-- Claim C2: for every frame whose rotation matrix is orthonormal and every
point `p`, `invert_point` applied to the result of `apply_to_point` returns
`p` — exactly, in the real-number model (so in particular within floating
tolerance).  The `extra_dims` broadcasting of the source does not change the
per-element arithmetic. -/
theorem apply_invert_point_roundtrip (f : QuatAffine) (p : Vec3)
    (h : f.rotationᵀ * f.rotation = 1) :
    f.invert_point (f.apply_to_point p) = p := by
  have key : ∀ a b : Fin 3,
      f.rotation 0 a * f.rotation 0 b + f.rotation 1 a * f.rotation 1 b +
        f.rotation 2 a * f.rotation 2 b = if a = b then 1 else 0 := by
    intro a b
    have hab := congrFun (congrFun h a) b
    simpa [Matrix.mul_apply, Matrix.transpose_apply, Fin.sum_univ_three,
      Matrix.one_apply] using hab
  have k00 : f.rotation 0 0 * f.rotation 0 0 + f.rotation 1 0 * f.rotation 1 0 +
      f.rotation 2 0 * f.rotation 2 0 = 1 := by simpa using key 0 0
  have k01 : f.rotation 0 0 * f.rotation 0 1 + f.rotation 1 0 * f.rotation 1 1 +
      f.rotation 2 0 * f.rotation 2 1 = 0 := by simpa using key 0 1
  have k02 : f.rotation 0 0 * f.rotation 0 2 + f.rotation 1 0 * f.rotation 1 2 +
      f.rotation 2 0 * f.rotation 2 2 = 0 := by simpa using key 0 2
  have k11 : f.rotation 0 1 * f.rotation 0 1 + f.rotation 1 1 * f.rotation 1 1 +
      f.rotation 2 1 * f.rotation 2 1 = 1 := by simpa using key 1 1
  have k12 : f.rotation 0 1 * f.rotation 0 2 + f.rotation 1 1 * f.rotation 1 2 +
      f.rotation 2 1 * f.rotation 2 2 = 0 := by simpa using key 1 2
  have k22 : f.rotation 0 2 * f.rotation 0 2 + f.rotation 1 2 * f.rotation 1 2 +
      f.rotation 2 2 * f.rotation 2 2 = 1 := by simpa using key 2 2
  funext i
  fin_cases i <;>
    simp [QuatAffine.invert_point, QuatAffine.apply_to_point,
      apply_rot_to_vec, apply_inverse_rot_to_vec, Matrix.vecHead,
      Matrix.vecTail]
  · linear_combination p 0 * k00 + p 1 * k01 + p 2 * k02
  · linear_combination p 0 * k01 + p 1 * k11 + p 2 * k12
  · linear_combination p 0 * k02 + p 1 * k12 + p 2 * k22

/-- Witness for C2 at the identity rotation and a concrete point. -/
theorem apply_invert_point_roundtrip_witness :
    QuatAffine.invert_point ⟨some ![1, 0, 0, 0], 1, ![4, 5, 6]⟩
      (QuatAffine.apply_to_point ⟨some ![1, 0, 0, 0], 1, ![4, 5, 6]⟩ ![1, 2, 3]) =
      ![1, 2, 3] :=
  apply_invert_point_roundtrip ⟨some ![1, 0, 0, 0], 1, ![4, 5, 6]⟩ ![1, 2, 3]
    (by simp)

/-! ## Claim C9 -/

/-- Claim C9: applying `scale_translation k1` then `scale_translation k2`
yields a frame whose translation is the original translation multiplied
elementwise by `k1 * k2`, with quaternion and rotation unchanged. -/
theorem scale_translation_compose (f : QuatAffine) (k1 k2 : ℝ) :
    (f.scale_translation k1).bind (fun g => g.scale_translation k2) =
      some ⟨f.quaternion, f.rotation, fun i => (k1 * k2) * f.translation i⟩ := by
  cases f with
  | mk q r t =>
    have ht : (fun i => k2 * (k1 * t i)) = (fun i => (k1 * k2) * t i) := by
      funext i; ring
    simp [QuatAffine.scale_translation, QuatAffine.init, ht]

/-! ## Claim C10 -/

/-- Claim C10: a frame constructed with `quaternion=None` and an explicit
rotation is a legal value, and `to_tensor` fails on it; in general `to_tensor`
yields a 7-component encoding exactly when the frame holds a quaternion. -/
theorem to_tensor_requires_quaternion :
    (∀ (t : Vec3) (r : Mat3),
        QuatAffine.init none t (some r) false = some ⟨none, r, t⟩) ∧
    (∀ f : QuatAffine, (QuatAffine.to_tensor f).isSome ↔ f.quaternion.isSome) := by
  constructor
  · intro t r
    rfl
  · intro f
    cases hq : f.quaternion <;> simp [QuatAffine.to_tensor, hq]

/-! ## Claim C7 -/

/-- Claim C7 evaluated on the code: `stop_rot_gradient` fails on every frame,
because numpy arrays expose no `detach` method; it never produces the identity
copy the claim describes. -/
theorem stop_rot_gradient_always_fails (f : QuatAffine) :
    f.stop_rot_gradient = none := by
  cases hq : f.quaternion <;>
    simp [QuatAffine.stop_rot_gradient, npDetach, hq]

/-! ## Claim C5 -/

/-- Claim C5, value level: composing the all-zero 6-component update onto a
frame with quaternion `q` returns the frame rebuilt from `q` and the original
translation by the renormalizing constructor: quaternion `q/|q|`, rotation
rederived from `q/|q|`, translation unchanged.  (In the running numpy code the
final constructor call crashes inside `quat_to_rot`'s reshape; this is the
value-level behavior of the formulas, see the C5 analysis.) -/
theorem pre_compose_zero_update (f : QuatAffine) (q : Quat)
    (hq : f.quaternion = some q) :
    f.pre_compose (fun _ => 0) =
      some ⟨some (normalizeQuat q), quat_to_rot (normalizeQuat q),
        f.translation⟩ := by
  have hzero : ∀ k, quat_multiply_by_vec q ![(0 : ℝ), 0, 0] k = 0 :=
    quat_multiply_by_vec_zero q
  have h1 : (fun i => q i + quat_multiply_by_vec q ![(0 : ℝ), 0, 0] i) = q := by
    funext i; rw [hzero]; ring
  have h2 : (fun i => f.translation i +
      apply_rot_to_vec f.rotation ![(0 : ℝ), 0, 0] i) = f.translation := by
    funext i
    fin_cases i <;>
      simp [apply_rot_to_vec, Matrix.vecHead, Matrix.vecTail]
  simp only [QuatAffine.pre_compose, hq]
  rw [h1, h2]
  rfl

/-- Witness for C5 at a concrete frame. -/
theorem pre_compose_zero_update_witness :
    QuatAffine.pre_compose ⟨some ![1, 0, 0, 0], 1, ![1, 2, 3]⟩ (fun _ => 0) =
      some ⟨some (normalizeQuat ![1, 0, 0, 0]),
        quat_to_rot (normalizeQuat ![1, 0, 0, 0]), ![1, 2, 3]⟩ :=
  pre_compose_zero_update ⟨some ![1, 0, 0, 0], 1, ![1, 2, 3]⟩ ![1, 0, 0, 0] rfl

/-! ## Claim C8 -/

/-- Appending two trailing dimensions: the last entry is the second one. -/
theorem append_pair_getLast (l : List ℕ) (a b : ℕ) :
    (l ++ [a, b]).getLast? = some b := by
  rw [List.getLast?_append] <;> simp

/-- Appending two trailing dimensions: after dropping the last entry, the last
entry is the first one. -/
theorem append_pair_dropLast_getLast (l : List ℕ) (a b : ℕ) :
    (l ++ [a, b]).dropLast.getLast? = some a := by
  have h : (l ++ [a, b]).dropLast = l ++ [a] := by
    rw [List.dropLast_append_of_ne_nil] <;> simp
  rw [h, List.getLast?_append] <;> simp

/-- Counterexample for C8 as stated: a quaternion of shape `[2, 4]` and a
translation of shape `[5, 3]` have mismatched leading (batch) dimensions, yet
every assertion of the constructor passes — no invalid-input error is raised. -/
theorem init_shape_checks_counterexample :
    initShapeChecks (some [2, 4]) [5, 3] none = true ∧
      ([2, 4] : Shape).dropLast ≠ ([5, 3] : Shape).dropLast := by
  constructor
  · rfl
  · decide

/-- Claim C8 (amended): the constructor's assertions check trailing dimensions
only — quaternion trailing dimension 4 when a quaternion is given, rotation
trailing dimensions 3×3 (automatic when the rotation is derived from a given
quaternion, impossible when both are absent) and translation trailing
dimension 3; no assertion relates the leading dimensions of the quaternion and
the translation. -/
theorem init_shape_checks_amended (qs : Option Shape) (ts : Shape)
    (rs : Option Shape) :
    initShapeChecks qs ts rs = true ↔
      ((∀ s, qs = some s → s.getLast? = some 4) ∧
       (rs = none → qs ≠ none) ∧
       (∀ r, rs = some r → r.getLast? = some 3 ∧ r.dropLast.getLast? = some 3) ∧
       ts.getLast? = some 3) := by
  cases qs <;> cases rs <;>
    simp [initShapeChecks, append_pair_getLast, append_pair_dropLast_getLast,
      and_assoc]

/-! ## Claim C6 -/

/-- The two 3×3 product helpers of the source compute identical formulas. -/
theorem multiply_np_eq : multiply_np = multiply := rfl

/-- The two rotation-application helpers of the source compute identical
formulas. -/
theorem apply_rot_to_vec_np_eq : apply_rot_to_vec_np = apply_rot_to_vec := rfl

/-- Counterexample for C6 as stated: on the triplet `N = (0,1,0)`,
`CA = (0,0,0)`, `C = (1,0,0)` the two builder variants return different
rotation matrices — entry `(0,0)` is `(1/(1+1e-20)) * (1/sqrt(1+1e-20))` for the
batched variant but `(1/sqrt(1+1e-20)) * (1/sqrt(1+1e-20))` for the unbatched
one, because the second rotation's normalizer is `sqrt(s) + 1e-20` in one and
`sqrt(1e-20 + s)` in the other.  The formulas are not identical and the outputs
differ exactly. -/
theorem canonical_transform_variants_counterexample :
    (make_canonical_transform ![0, 1, 0] ![0, 0, 0] ![1, 0, 0]).2 0 0 ≠
      (make_canonical_transform_np ![0, 1, 0] ![0, 0, 0] ![1, 0, 0]).2 0 0 := by
  delta make_canonical_transform make_canonical_transform_np
  lift_lets
  intro t1 nx1 cx1 cX cY cZ nrm1 sc1 cc1 m1 nrm2 sc2 cc2 m2 mc nx2 nY nZ nrm3 sn cn mn
  intro cX' cY' cZ' sc1' cc1' m1' sc2' cc2' m2' mc' nx2' nY' nZ' sn' cn' mn'
  intro heq
  simp only [multiply, multiply_np, mn, mn', Matrix.cons_val',
    Matrix.cons_val_zero, Matrix.cons_val_one, Matrix.head_cons,
    Matrix.empty_val', Matrix.cons_val_fin_one, Matrix.head_fin_const,
    Matrix.of_apply, Matrix.cons_val_two, Matrix.vecHead, Matrix.vecTail] at heq
  simp only [mc, mc', multiply, multiply_np, m1, m2, m1', m2', Matrix.cons_val',
    Matrix.cons_val_zero, Matrix.cons_val_one, Matrix.head_cons,
    Matrix.empty_val', Matrix.cons_val_fin_one, Matrix.head_fin_const,
    Matrix.of_apply, Matrix.cons_val_two, Matrix.vecHead, Matrix.vecTail] at heq
  simp only [sc1, cc1, sc2, cc2, cX, cY, cZ, nrm1, nrm2, sc1', cc1', sc2', cc2',
    cX', cY', cZ', cx1, t1] at heq
  norm_num at heq
  have h2 := congrArg (fun x : ℝ => x ^ 2) heq
  simp only [div_pow] at h2
  rw [Real.sq_sqrt (by norm_num), Real.sq_sqrt (by norm_num)] at h2
  norm_num at h2

/-- Claim C6 (amended): the two builder variants always agree on the
translation (`-CA`), and they implement the same formulas except for the
placement of the `1e-20` epsilon in the second rotation's normalizer
(`sqrt(s) + 1e-20` batched, `sqrt(1e-20 + s)` unbatched, for `s` the squared
norm of the shifted C atom); whenever those two normalizers coincide on an
input, the entire `(translation, rotation)` outputs coincide. -/
theorem canonical_transform_variants_amended (n_xyz ca_xyz c_xyz : Vec3) :
    (make_canonical_transform n_xyz ca_xyz c_xyz).1 =
      (make_canonical_transform_np n_xyz ca_xyz c_xyz).1 ∧
    (Real.sqrt ((c_xyz 0 + -(ca_xyz 0)) ^ 2 + (c_xyz 1 + -(ca_xyz 1)) ^ 2 +
          (c_xyz 2 + -(ca_xyz 2)) ^ 2) + 1e-20 =
        Real.sqrt (1e-20 + (c_xyz 0 + -(ca_xyz 0)) ^ 2 + (c_xyz 1 + -(ca_xyz 1)) ^ 2 +
          (c_xyz 2 + -(ca_xyz 2)) ^ 2) →
      make_canonical_transform n_xyz ca_xyz c_xyz =
        make_canonical_transform_np n_xyz ca_xyz c_xyz) := by
  refine ⟨rfl, fun h => ?_⟩
  delta make_canonical_transform make_canonical_transform_np
  lift_lets
  intro t1 nx1 cx1 cX cY cZ nrm1 sc1 cc1 m1 nrm2 sc2 cc2 m2 mc nx2 nY nZ nrm3 sn cn mn
  intro cX' cY' cZ' sc1' cc1' m1' sc2' cc2' m2' mc' nx2' nY' nZ' sn' cn' mn'
  have ecX : cX' = cX := rfl
  have ecY : cY' = cY := rfl
  have ecZ : cZ' = cZ := rfl
  have h' : Real.sqrt (cX ^ 2 + cY ^ 2 + cZ ^ 2) + 1e-20 =
      Real.sqrt (1e-20 + cX ^ 2 + cY ^ 2 + cZ ^ 2) := h
  have e4 : sc1' = sc1 := by
    simp only [sc1', sc1, nrm1, ecX, ecY]
    rw [show (1e-20 + cX ^ 2 + cY ^ 2 : ℝ) = cX ^ 2 + cY ^ 2 + 1e-20 from by ring]
  have e5 : cc1' = cc1 := by
    simp only [cc1', cc1, nrm1, ecX, ecY]
    rw [show (1e-20 + cX ^ 2 + cY ^ 2 : ℝ) = cX ^ 2 + cY ^ 2 + 1e-20 from by ring]
  have e6 : m1' = m1 := by
    simp only [m1', m1, e4, e5]
  have e7 : sc2' = sc2 := by
    simp only [sc2', sc2, nrm2, ecX, ecY, ecZ]
    rw [← h']
  have e8 : cc2' = cc2 := by
    simp only [cc2', cc2, nrm2, ecX, ecY, ecZ]
    rw [← h']
  have e9 : m2' = m2 := by
    simp only [m2', m2, e7, e8]
  have e10 : mc' = mc := by
    simp only [mc', mc, multiply_np_eq, e9, e6]
  have e11 : nx2' = nx2 := by
    simp only [nx2', nx2, apply_rot_to_vec_np_eq, e10]
  have e12 : nY' = nY := by
    simp only [nY', nY, e11]
  have e13 : nZ' = nZ := by
    simp only [nZ', nZ, e11]
  have e14 : sn' = sn := by
    simp only [sn', sn, nrm3, e12, e13]
    rw [show (1e-20 + nY ^ 2 + nZ ^ 2 : ℝ) = nY ^ 2 + nZ ^ 2 + 1e-20 from by ring]
  have e15 : cn' = cn := by
    simp only [cn', cn, nrm3, e12, e13]
    rw [show (1e-20 + nY ^ 2 + nZ ^ 2 : ℝ) = nY ^ 2 + nZ ^ 2 + 1e-20 from by ring]
  have e16 : mn' = mn := by
    simp only [mn', mn, e14, e15]
  simp only [multiply_np_eq, e16, e10]

/-- Witness for the conditional part of the amended C6: on the triplet with
`C = (0.499999999999999999995, 0, 0)` the two normalizers coincide exactly
(`sqrt(s) + 1e-20 = sqrt(1e-20 + s)` holds at `s = ((1 - 1e-20)/2)^2`), and the
two variants produce identical outputs. -/
theorem canonical_transform_variants_amended_witness :
    (make_canonical_transform ![0, 1, 0] ![0, 0, 0]
        ![0.499999999999999999995, 0, 0]).1 =
      (make_canonical_transform_np ![0, 1, 0] ![0, 0, 0]
        ![0.499999999999999999995, 0, 0]).1 ∧
    make_canonical_transform ![0, 1, 0] ![0, 0, 0]
        ![0.499999999999999999995, 0, 0] =
      make_canonical_transform_np ![0, 1, 0] ![0, 0, 0]
        ![0.499999999999999999995, 0, 0] := by
  refine ⟨(canonical_transform_variants_amended _ _ _).1,
    (canonical_transform_variants_amended _ _ _).2 ?_⟩
  norm_num
  rw [show (9999999999999999999800000000000000000001 : ℝ) =
        99999999999999999999 ^ 2 from by norm_num,
      show (10000000000000000000200000000000000000001 : ℝ) =
        100000000000000000001 ^ 2 from by norm_num,
      show (40000000000000000000000000000000000000000 : ℝ) =
        200000000000000000000 ^ 2 from by norm_num,
      Real.sqrt_sq (by norm_num), Real.sqrt_sq (by norm_num),
      Real.sqrt_sq (by norm_num)]
  norm_num

/-! ## Claim C1 -/

/-- Counterexample for C1 as stated: on the (non-degenerate) triplet
`N = (0,1,0)`, `CA = (0,0,0)`, `C = (3,0,4)`, shifting C by the returned
translation and rotating by the returned rotation leaves a nonzero
z-coordinate (of order 1e-21, caused by the `1e-20` epsilon terms), so C does
not land exactly on the positive x-axis. -/
theorem canonical_positive_x_axis_counterexample :
    apply_rot_to_vec (make_canonical_transform ![0, 1, 0] ![0, 0, 0] ![3, 0, 4]).2
      (fun i => ![3, 0, 4] i +
        (make_canonical_transform ![0, 1, 0] ![0, 0, 0] ![3, 0, 4]).1 i) 2 ≠ 0 := by
  delta make_canonical_transform
  lift_lets
  intro t1 nx1 cx1 cX cY cZ nrm1 sc1 cc1 m1 nrm2 sc2 cc2 m2 mc nx2 nY nZ nrm3 sn cn mn
  have hcX : cX = 3 := by norm_num [cX, cx1, t1]
  have hcY : cY = 0 := by norm_num [cY, cx1, t1]
  have hcZ : cZ = 4 := by norm_num [cZ, cx1, t1]
  have hnrm1 : nrm1 = Real.sqrt (9 + 1e-20) := by
    simp only [nrm1, hcX, hcY]
    norm_num
  have h3 : (3 : ℝ) < nrm1 := by
    rw [hnrm1]
    rw [show ((9 : ℝ) + 1e-20) = 9.00000000000000000001 from by norm_num]
    exact (Real.lt_sqrt (by norm_num)).mpr (by norm_num)
  have hnrm1pos : (0 : ℝ) < nrm1 := lt_trans (by norm_num) h3
  have hsc1 : sc1 = 0 := by
    simp only [sc1, hcY]
    norm_num
  have hcc1 : cc1 = 3 / nrm1 := by
    simp only [cc1, hcX]
  have hnrm2 : nrm2 = 5 + 1e-20 := by
    simp only [nrm2, hcX, hcY, hcZ]
    norm_num
    rw [show ((25 : ℝ)) = 5 ^ 2 from by norm_num, Real.sqrt_sq (by norm_num)]
    norm_num
  have hsc2 : sc2 = 4 / (5 + 1e-20) := by
    simp only [sc2, hcZ, hnrm2]
  have hcc2 : cc2 = 3 / (5 + 1e-20) := by
    simp only [cc2, hcX, hcY, hnrm2]
    norm_num
    rw [show ((9 : ℝ)) = 3 ^ 2 from by norm_num, Real.sqrt_sq (by norm_num)]
    norm_num
  have hm1 : m1 = !![3 / nrm1, 0, 0; 0, 3 / nrm1, 0; 0, 0, 1] := by
    simp only [m1, hsc1, hcc1]
    norm_num
  have hm2 : m2 = !![3 / (5 + 1e-20), 0, 4 / (5 + 1e-20); 0, 1, 0;
      -(4 / (5 + 1e-20)), 0, 3 / (5 + 1e-20)] := by
    simp only [m2, hsc2, hcc2]
  have hmc : mc = !![3 / (5 + 1e-20) * (3 / nrm1), 0, 4 / (5 + 1e-20);
      0, 3 / nrm1, 0;
      -(4 / (5 + 1e-20)) * (3 / nrm1), 0, 3 / (5 + 1e-20)] := by
    simp only [mc, hm1, hm2, multiply]
    ext i j
    fin_cases i <;> fin_cases j <;>
      norm_num [Matrix.vecHead, Matrix.vecTail]
  have hnx2 : nx2 = ![0, 3 / nrm1, 0] := by
    simp only [nx2, hmc, apply_rot_to_vec]
    funext i
    fin_cases i <;>
      norm_num [nx1, t1, Matrix.vecHead, Matrix.vecTail]
  have hnY : nY = 3 / nrm1 := by
    simp only [nY, hnx2]
    norm_num
  have hnZ : nZ = 0 := by
    simp only [nZ, hnx2]
    norm_num
  have hnrm3pos : (0 : ℝ) < nrm3 := by
    simp only [nrm3]
    apply Real.sqrt_pos.mpr
    positivity
  have hsn : sn = 0 := by
    simp only [sn, hnZ]
    norm_num
  have hcn : cn = (3 / nrm1) / nrm3 := by
    simp only [cn, hnY]
  have hmn : mn = !![1, 0, 0; 0, (3 / nrm1) / nrm3, 0;
      0, 0, (3 / nrm1) / nrm3] := by
    simp only [mn, hsn, hcn]
    norm_num
  refine ne_of_gt ?_
  simp only [hmn, hmc, apply_rot_to_vec, multiply, t1, Matrix.cons_val',
    Matrix.cons_val_zero, Matrix.cons_val_one, Matrix.head_cons,
    Matrix.empty_val', Matrix.cons_val_fin_one, Matrix.head_fin_const,
    Matrix.of_apply, Matrix.cons_val_two, Matrix.vecHead, Matrix.vecTail]
  norm_num
  have hlt : 3 / nrm1 < 1 := by
    rw [div_lt_one hnrm1pos]
    exact h3
  have hF : (0 : ℝ) < 3 / nrm1 / nrm3 := by positivity
  have key : (400000000000000000000 / 500000000000000000001 : ℝ) * (3 / nrm1) * 3 <
      (100000000000000000000 / 166666666666666666667 : ℝ) * 4 := by
    linarith [hlt]
  calc 3 / nrm1 / nrm3 *
        (400000000000000000000 / 500000000000000000001 * (3 / nrm1)) * 3
      = 3 / nrm1 / nrm3 *
        (400000000000000000000 / 500000000000000000001 * (3 / nrm1) * 3) := by
        ring
    _ < 3 / nrm1 / nrm3 *
        (100000000000000000000 / 166666666666666666667 * 4) :=
        (mul_lt_mul_left hF).2 key
    _ = 3 / nrm1 / nrm3 * (100000000000000000000 / 166666666666666666667) * 4 := by
        ring


/-- Exact general facts of the canonical-frame builder: the translation is
`-CA`; shifting CA by it and rotating maps CA exactly to the origin; shifting
N and rotating puts N exactly in the xy-plane (z-coordinate 0) with
nonnegative y-coordinate (the sign the third-rotation formulas fix). -/
theorem canonical_transform_translation_plane
 (n_xyz ca_xyz c_xyz : Vec3) :
    (make_canonical_transform n_xyz ca_xyz c_xyz).1 = (fun i => -(ca_xyz i)) ∧
    (∀ j : Fin 3,
      apply_rot_to_vec (make_canonical_transform n_xyz ca_xyz c_xyz).2
        (fun i => ca_xyz i + (make_canonical_transform n_xyz ca_xyz c_xyz).1 i) j = 0) ∧
    apply_rot_to_vec (make_canonical_transform n_xyz ca_xyz c_xyz).2
      (fun i => n_xyz i + (make_canonical_transform n_xyz ca_xyz c_xyz).1 i) 2 = 0 ∧
    0 ≤ apply_rot_to_vec (make_canonical_transform n_xyz ca_xyz c_xyz).2
      (fun i => n_xyz i + (make_canonical_transform n_xyz ca_xyz c_xyz).1 i) 1 := by
  delta make_canonical_transform
  lift_lets
  intro t1 nx1 cx1 cX cY cZ nrm1 sc1 cc1 m1 nrm2 sc2 cc2 m2 mc nx2 nY nZ nrm3 sn cn mn
  have hnn : (0 : ℝ) ≤ nrm3⁻¹ := by
    simp only [nrm3]
    exact inv_nonneg.2 (Real.sqrt_nonneg _)
  refine ⟨rfl, ?_, ?_, ?_⟩
  · intro j
    fin_cases j <;>
      (simp [apply_rot_to_vec, t1, Matrix.vecHead, Matrix.vecTail]; try ring)
  · simp [apply_rot_to_vec, multiply, mn, sn, cn, nY, nZ, nx2, nx1, t1,
      Matrix.vecHead, Matrix.vecTail]
    ring
  · simp [apply_rot_to_vec, multiply, mn, sn, cn, nY, nZ, nx2, nx1, t1,
      Matrix.vecHead, Matrix.vecTail]
    ring_nf
    nlinarith [mul_nonneg (sq_nonneg (mc 1 0 * (n_xyz 0 - ca_xyz 0) +
        mc 1 1 * (n_xyz 1 - ca_xyz 1) + mc 1 2 * (n_xyz 2 - ca_xyz 2))) hnn,
      mul_nonneg (sq_nonneg (mc 2 0 * (n_xyz 0 - ca_xyz 0) +
        mc 2 1 * (n_xyz 1 - ca_xyz 1) + mc 2 2 * (n_xyz 2 - ca_xyz 2))) hnn]


/-- The concrete reference scenario of C1, exactly: the triplet
`N = (-0.527, 1.359, 0)`, `CA = (0,0,0)`, `C = (1.525, 0, 0)` yields
translation `(0,0,0)`; the transformed C has y- and z-coordinates exactly 0
and positive x-coordinate, and the transformed N has z-coordinate exactly 0
and positive y-coordinate. -/
theorem canonical_transform_reference_scenario :
    (make_canonical_transform ![-0.527, 1.359, 0] ![0, 0, 0] ![1.525, 0, 0]).1 =
      ![0, 0, 0] ∧
    apply_rot_to_vec
      (make_canonical_transform ![-0.527, 1.359, 0] ![0, 0, 0] ![1.525, 0, 0]).2
      (fun i => ![1.525, 0, 0] i +
        (make_canonical_transform ![-0.527, 1.359, 0] ![0, 0, 0] ![1.525, 0, 0]).1 i) 1 = 0 ∧
    apply_rot_to_vec
      (make_canonical_transform ![-0.527, 1.359, 0] ![0, 0, 0] ![1.525, 0, 0]).2
      (fun i => ![1.525, 0, 0] i +
        (make_canonical_transform ![-0.527, 1.359, 0] ![0, 0, 0] ![1.525, 0, 0]).1 i) 2 = 0 ∧
    0 < apply_rot_to_vec
      (make_canonical_transform ![-0.527, 1.359, 0] ![0, 0, 0] ![1.525, 0, 0]).2
      (fun i => ![1.525, 0, 0] i +
        (make_canonical_transform ![-0.527, 1.359, 0] ![0, 0, 0] ![1.525, 0, 0]).1 i) 0 ∧
    apply_rot_to_vec
      (make_canonical_transform ![-0.527, 1.359, 0] ![0, 0, 0] ![1.525, 0, 0]).2
      (fun i => ![-0.527, 1.359, 0] i +
        (make_canonical_transform ![-0.527, 1.359, 0] ![0, 0, 0] ![1.525, 0, 0]).1 i) 2 = 0 ∧
    0 < apply_rot_to_vec
      (make_canonical_transform ![-0.527, 1.359, 0] ![0, 0, 0] ![1.525, 0, 0]).2
      (fun i => ![-0.527, 1.359, 0] i +
        (make_canonical_transform ![-0.527, 1.359, 0] ![0, 0, 0] ![1.525, 0, 0]).1 i) 1 := by
  delta make_canonical_transform
  lift_lets
  intro t1 nx1 cx1 cX cY cZ nrm1 sc1 cc1 m1 nrm2 sc2 cc2 m2 mc nx2 nY nZ nrm3 sn cn mn
  have hcX : cX = 1.525 := by norm_num [cX, cx1, t1]
  have hcY : cY = 0 := by norm_num [cY, cx1, t1]
  have hcZ : cZ = 0 := by norm_num [cZ, cx1, t1]
  have hnrm1pos : (0 : ℝ) < nrm1 := by
    simp only [nrm1]
    apply Real.sqrt_pos.mpr
    positivity
  have hsc1 : sc1 = 0 := by
    simp only [sc1, hcY]
    norm_num
  have hcc1 : cc1 = 1.525 / nrm1 := by
    simp only [cc1, hcX]
  have hnrm2 : nrm2 = 1.525 + 1e-20 := by
    simp only [nrm2, hcX, hcY, hcZ]
    norm_num
    rw [show ((3721 : ℝ)) = 61 ^ 2 from by norm_num,
      show ((1600 : ℝ)) = 40 ^ 2 from by norm_num,
      Real.sqrt_sq (by norm_num), Real.sqrt_sq (by norm_num)]
    norm_num
  have hsc2 : sc2 = 0 := by
    simp only [sc2, hcZ]
    norm_num
  have hcc2 : cc2 = 1.525 / (1.525 + 1e-20) := by
    simp only [cc2, hcX, hcY, hnrm2]
    norm_num
    rw [show ((3721 : ℝ)) = 61 ^ 2 from by norm_num,
      show ((1600 : ℝ)) = 40 ^ 2 from by norm_num,
      Real.sqrt_sq (by norm_num), Real.sqrt_sq (by norm_num)]
    norm_num
  have hm1 : m1 = !![1.525 / nrm1, 0, 0; 0, 1.525 / nrm1, 0; 0, 0, 1] := by
    simp only [m1, hsc1, hcc1]
    norm_num
  have hm2 : m2 = !![1.525 / (1.525 + 1e-20), 0, 0; 0, 1, 0;
      0, 0, 1.525 / (1.525 + 1e-20)] := by
    simp only [m2, hsc2, hcc2]
    norm_num
  have hmc : mc = !![1.525 / (1.525 + 1e-20) * (1.525 / nrm1), 0, 0;
      0, 1.525 / nrm1, 0;
      0, 0, 1.525 / (1.525 + 1e-20)] := by
    simp only [mc, hm1, hm2, multiply]
    ext i j
    fin_cases i <;> fin_cases j <;>
      norm_num [Matrix.vecHead, Matrix.vecTail]
  have hnx2 : nx2 = ![1.525 / (1.525 + 1e-20) * (1.525 / nrm1) * (-0.527),
      1.525 / nrm1 * 1.359, 0] := by
    simp only [nx2, hmc, apply_rot_to_vec]
    funext i
    fin_cases i <;>
      norm_num [nx1, t1, Matrix.vecHead, Matrix.vecTail]
  have hnY : nY = 1.525 / nrm1 * 1.359 := by
    simp only [nY, hnx2]
    norm_num
  have hnZ : nZ = 0 := by
    simp only [nZ, hnx2]
    norm_num
  have hnrm3pos : (0 : ℝ) < nrm3 := by
    simp only [nrm3]
    apply Real.sqrt_pos.mpr
    positivity
  have hsn : sn = 0 := by
    simp only [sn, hnZ]
    norm_num
  have hnYpos : (0 : ℝ) < nY := by
    rw [hnY]
    positivity
  have hcnpos : (0 : ℝ) < cn := by
    simp only [cn]
    exact div_pos hnYpos hnrm3pos
  have hmn : mn = !![1, 0, 0; 0, cn, 0; 0, 0, cn] := by
    simp only [mn, hsn]
    norm_num
  refine ⟨?_, ?_, ?_, ?_, ?_, ?_⟩
  · funext i
    fin_cases i <;> norm_num [t1]
  · simp [apply_rot_to_vec, multiply, hmn, hmc, t1, Matrix.vecHead, Matrix.vecTail]
  · simp [apply_rot_to_vec, multiply, hmn, hmc, t1, Matrix.vecHead, Matrix.vecTail]
  · simp [apply_rot_to_vec, multiply, hmn, hmc, t1, Matrix.vecHead, Matrix.vecTail]
    positivity
  · simp [apply_rot_to_vec, multiply, hmn, hmc, t1, Matrix.vecHead, Matrix.vecTail]
  · simp [apply_rot_to_vec, multiply, hmn, hmc, t1, Matrix.vecHead, Matrix.vecTail]
    positivity

/-- Claim C1 (amended): for every triplet the builder returns
`translation = -p2`, and the transform maps p2 exactly to the origin and p1
exactly into the xy-plane with the y-coordinate sign the formulas fix
(nonnegative); exact placement of p3 on the positive x-axis does not hold in
general (the `1e-20` epsilon terms perturb it, see the counterexample), but it
does hold exactly in the concrete reference scenario
`N = (-0.527, 1.359, 0)`, `CA = (0,0,0)`, `C = (1.525, 0, 0)`, where the
transformed N moreover lies exactly in the xy-plane with positive
y-coordinate. -/
theorem canonical_transform_amended :
    (∀ n_xyz ca_xyz c_xyz : Vec3,
      (make_canonical_transform n_xyz ca_xyz c_xyz).1 = (fun i => -(ca_xyz i)) ∧
      (∀ j : Fin 3,
        apply_rot_to_vec (make_canonical_transform n_xyz ca_xyz c_xyz).2
          (fun i => ca_xyz i +
            (make_canonical_transform n_xyz ca_xyz c_xyz).1 i) j = 0) ∧
      apply_rot_to_vec (make_canonical_transform n_xyz ca_xyz c_xyz).2
        (fun i => n_xyz i +
          (make_canonical_transform n_xyz ca_xyz c_xyz).1 i) 2 = 0 ∧
      0 ≤ apply_rot_to_vec (make_canonical_transform n_xyz ca_xyz c_xyz).2
        (fun i => n_xyz i +
          (make_canonical_transform n_xyz ca_xyz c_xyz).1 i) 1) ∧
    ((make_canonical_transform ![-0.527, 1.359, 0] ![0, 0, 0] ![1.525, 0, 0]).1 =
      ![0, 0, 0] ∧
    apply_rot_to_vec
      (make_canonical_transform ![-0.527, 1.359, 0] ![0, 0, 0] ![1.525, 0, 0]).2
      (fun i => ![1.525, 0, 0] i +
        (make_canonical_transform ![-0.527, 1.359, 0] ![0, 0, 0] ![1.525, 0, 0]).1 i) 1 = 0 ∧
    apply_rot_to_vec
      (make_canonical_transform ![-0.527, 1.359, 0] ![0, 0, 0] ![1.525, 0, 0]).2
      (fun i => ![1.525, 0, 0] i +
        (make_canonical_transform ![-0.527, 1.359, 0] ![0, 0, 0] ![1.525, 0, 0]).1 i) 2 = 0 ∧
    0 < apply_rot_to_vec
      (make_canonical_transform ![-0.527, 1.359, 0] ![0, 0, 0] ![1.525, 0, 0]).2
      (fun i => ![1.525, 0, 0] i +
        (make_canonical_transform ![-0.527, 1.359, 0] ![0, 0, 0] ![1.525, 0, 0]).1 i) 0 ∧
    apply_rot_to_vec
      (make_canonical_transform ![-0.527, 1.359, 0] ![0, 0, 0] ![1.525, 0, 0]).2
      (fun i => ![-0.527, 1.359, 0] i +
        (make_canonical_transform ![-0.527, 1.359, 0] ![0, 0, 0] ![1.525, 0, 0]).1 i) 2 = 0 ∧
    0 < apply_rot_to_vec
      (make_canonical_transform ![-0.527, 1.359, 0] ![0, 0, 0] ![1.525, 0, 0]).2
      (fun i => ![-0.527, 1.359, 0] i +
        (make_canonical_transform ![-0.527, 1.359, 0] ![0, 0, 0] ![1.525, 0, 0]).1 i) 1) :=
  ⟨canonical_transform_translation_plane, canonical_transform_reference_scenario⟩
